import Mathlib

/-!
# Verification of the log-monitor remote session and streaming layer

A shallow embedding of the Go sources of `log-monitor` (SSH connection
pool, remote command layer, tailer, and UI coordination logic), together
with theorems settling the specification claims about them.

Pure Go functions are translated to Lean functions over `List Char` /
`String`; effectful code (SSH sessions, dialing, goroutine races) is
translated by passing an explicit "world" record holding the outcome of
each external primitive, and returning the visible result together with a
trace of the externally observable actions that were performed.
-/

namespace LogMonitor

/-! ## Configuration data model (internal/config/config.go) -/

/-- `config.AuthConfig`: authentication method ("key", "password", or
"agent") plus the key path used by the "key" method. -/
structure AuthConfig where
  Method : String
  KeyPath : String
deriving DecidableEq, Repr

/-- `config.ServerConfig`: one configured remote target. -/
structure ServerConfig where
  Name : String
  Host : String
  Port : Nat
  User : String
  Auth : AuthConfig
  LogPath : String
  FilePatterns : List String
  Sudo : Bool
deriving DecidableEq, Repr

/-! ## Tailer (internal/ssh/tailer.go)

The background goroutine started by `StartTail` races two events:
the cancellation token firing (`<-ctx.Done()`), or the stdout copy loop
ending (`err := <-copyDone`).  `tailerLoopEnd` embeds the body of that
`select` (tailer.go lines 67-80): which branch ran is the input event. -/

/-- Which event won the race inside the tail goroutine's `select`. -/
inductive TailEnd
  /-- the cancellation token fired first -/
  | cancelled
  /-- the copy loop ended naturally; `err` is the result of `io.Copy`
  (`none` models a clean end-of-stream where `io.Copy` returns nil) -/
  | copyDone (err : Option String)
deriving DecidableEq, Repr

/-- Externally observable actions of the tail goroutine's final step. -/
inductive TailAct
  | sigTERM
  | closeSession
deriving DecidableEq, Repr

/-- Outcome of the tail goroutine's final step: the recorded `t.err`,
how many times the registered error callback was invoked, and the
remote-session actions performed. -/
structure TailOutcome where
  recordedErr : Option String
  callbackCalls : Nat
  actions : List TailAct
deriving DecidableEq, Repr

/-- Embedding of the `select` at the end of `StartTail`'s goroutine
(tailer.go:67-80).  `callbackSet` says whether `t.errCallback` was
non-nil when the branch read it.  On cancellation the remote process is
signalled and the session closed (plus the deferred close); the error is
not recorded and the callback is not invoked.  On natural end the error
is recorded, and the callback is invoked only when `err != nil && cb != nil`. -/
def tailerLoopEnd (ev : TailEnd) (callbackSet : Bool) : TailOutcome :=
  match ev with
  | .cancelled =>
      { recordedErr := none
        callbackCalls := 0
        actions := [.sigTERM, .closeSession, .closeSession] }
  | .copyDone e =>
      { recordedErr := e
        callbackCalls := if e.isSome && callbackSet then 1 else 0
        actions := [.closeSession] }

/-! ## App shutdown and update queue (internal/ui/app.go) -/

/-- The coordinator state fields touched by `queueUpdate` and `shutdown`
(app.go): the `stopped` flag, the pending presentation-loop updates, the
in-flight connect handle, the active tail handle, and the pooled
session ids closed by `CloseAll`. -/
structure AppState where
  stopped : Bool
  queued : List Nat
  connectActive : Bool
  tailActive : Bool
  poolClients : List Nat
deriving DecidableEq, Repr

/-- Embedding of `App.queueUpdate` (app.go:125-136): if the `stopped`
flag is set the enqueue attempt returns immediately and is dropped;
otherwise the update is handed to the presentation loop. -/
def queueUpdate (u : Nat) (s : AppState) : AppState :=
  if s.stopped then s else { s with queued := s.queued ++ [u] }

/-- Embedding of `App.shutdown` (app.go:476-504): sets the `stopped`
flag first, then cancels any in-flight connect, cancels and clears the
active tail (waiting with a bounded timeout, which does not change the
coordinator state), and finally closes every pooled session. -/
def shutdown (s : AppState) : AppState :=
  let s1 := { s with stopped := true }
  let s2 := { s1 with connectActive := false }
  let s3 := if s2.tailActive then { s2 with tailActive := false } else s2
  { s3 with poolClients := [] }

/-! ## Remote command execution (ssh commands file, `runCommand`) -/

/-- `ssh.CommandOpts`. -/
structure CommandOpts where
  SudoPassword : String
deriving DecidableEq, Repr

/-- The distinct error values `runCommand` can return, one constructor
per `fmt.Errorf` site.  `sudoAuthFailed` is the distinct
"sudo authentication failed" error; `running` is the generic
command-failure error embedding the command, the wait error and the
captured output. -/
inductive CmdError
  | creatingSession (e : String)
  | stdinPipe (e : String)
  | starting (cmd e : String)
  | writingPassword (e : String)
  | sudoAuthFailed
  | running (cmd e out : String)
deriving DecidableEq, Repr

/-- `l₁` is a prefix of `l₂` (Boolean, structural). -/
def isPrefixOfL : List Char → List Char → Bool
  | [], _ => true
  | _ :: _, [] => false
  | a :: as, b :: bs => a = b && isPrefixOfL as bs

/-- `sub` occurs as a contiguous sublist of `l` (Boolean, structural). -/
def isInfixOfL (sub : List Char) : List Char → Bool
  | [] => isPrefixOfL sub []
  | b :: bs => isPrefixOfL sub (b :: bs) || isInfixOfL sub bs

/-- `strings.Contains(s, sub)`. -/
def goContains (s sub : String) : Bool :=
  isInfixOfL sub.toList s.toList

/-- The stderr authentication-failure test inside `runCommand`'s sudo
path: `strings.Contains(stderrStr, "Sorry, try again") ||
strings.Contains(stderrStr, "incorrect password")`. -/
def isSudoAuthFailure (stderrStr : String) : Bool :=
  goContains stderrStr "Sorry, try again" || goContains stderrStr "incorrect password"

/-- Outcomes of the session primitives used by one `runCommand` call. -/
structure CmdWorld where
  newSessionOk : Except String Unit
  stdinPipeOk : Except String Unit
  startOk : Except String Unit
  writeOk : Except String Unit
  /-- result of `sess.Wait()` on the sudo path; `some e` = the remote
  command failed -/
  waitErr : Option String
  /-- bytes captured in the sudo path's stdout buffer -/
  stdoutData : String
  /-- bytes captured in the sudo path's separate stderr buffer -/
  stderrData : String
  /-- combined output of `sess.CombinedOutput` on the non-sudo path -/
  combinedOutput : String
  /-- error of `sess.CombinedOutput` on the non-sudo path -/
  combinedErr : Option String
deriving Repr

/-- Embedding of `runCommand` (commands file, lines 171-217).  With a
sudo password the command is wrapped in `sudo -S`, the password written
to stdin, and after `Wait` fails the separately captured stderr is
tested for the authentication-failure markers before falling back to
the generic command-failure error. -/
def runCommand (w : CmdWorld) (cmd : String) (opts : CommandOpts) :
    Except CmdError String :=
  match w.newSessionOk with
  | .error e => .error (.creatingSession e)
  | .ok _ =>
    if opts.SudoPassword ≠ "" then
      let sudoCmd := "sudo -S " ++ cmd
      match w.stdinPipeOk with
      | .error e => .error (.stdinPipe e)
      | .ok _ =>
        match w.startOk with
        | .error e => .error (.starting sudoCmd e)
        | .ok _ =>
          match w.writeOk with
          | .error e => .error (.writingPassword e)
          | .ok _ =>
            match w.waitErr with
            | some e =>
                if isSudoAuthFailure w.stderrData then
                  .error .sudoAuthFailed
                else
                  .error (.running cmd e w.stderrData)
            | none => .ok w.stdoutData
    else
      match w.combinedErr with
      | some e => .error (.running cmd e w.combinedOutput)
      | none => .ok w.combinedOutput

/-! ## Glob matching (Go standard library `path/filepath.Match`)

`filterByPatterns` filters listing entries with `filepath.Match`.  The
functions below embed Go's `match.go` over `List Char` (Go operates on
bytes and decodes runes; the patterns and names in this repository are
ASCII, where characters and runes coincide).  `Except.error ()` plays
`ErrBadPattern`; the separator is `'/'`. -/

/-- `getEsc` of match.go: read one possibly backslash-escaped character
from the head of a character-class range, failing (`ErrBadPattern`) on
an empty chunk, a leading `-` or `]`, a trailing backslash, or a chunk
that would end immediately after the character (a class must still be
closed by `]`). -/
def getEsc : List Char → Except Unit (Char × List Char)
  | [] => .error ()
  | c :: tl =>
    if c = '-' || c = ']' then .error ()
    else if c = '\\' then
      match tl with
      | [] => .error ()
      | d :: dtl => if dtl.isEmpty then .error () else .ok (d, dtl)
    else
      if tl.isEmpty then .error () else .ok (c, tl)

/-- Did `getEsc` succeed? -/
def getEscOk (l : List Char) : Bool :=
  match getEsc l with
  | .ok _ => true
  | .error _ => false

/-- The character read by a successful `getEsc` (unused default on failure). -/
def getEscChar (l : List Char) : Char :=
  match getEsc l with
  | .ok p => p.1
  | .error _ => Char.ofNat 0

/-- The chunk remaining after a successful `getEsc` (unused default on
failure). -/
def getEscRest (l : List Char) : List Char :=
  match getEsc l with
  | .ok p => p.2
  | .error _ => []

theorem getEscRest_length {l : List Char} (h : getEscOk l = true) :
    (getEscRest l).length < l.length := by
  match hge : getEsc l with
  | .error e =>
      unfold getEscOk at h
      rw [hge] at h
      simp at h
  | .ok (r, rest) =>
      have hrest : getEscRest l = rest := by
        unfold getEscRest
        rw [hge]
      rw [hrest]
      match l with
      | [] => simp [getEsc] at hge
      | c :: tl =>
          unfold getEsc at hge
          repeat' split at hge
          all_goals simp_all
          all_goals omega

/-- The character-class loop of `matchChunk` (the `for { ... }` loop of
match.go): parse ranges `lo-hi` (or single characters) until the
closing `]`, recording in `mtch` whether the probed rune `r` fell in
any range.  `nrange` counts parsed ranges, so a `]` in first position
is an ordinary range character rather than the terminator. -/
def parseRanges (r : Char) (mtch : Bool) (nrange : Nat) (chunk : List Char) :
    Except Unit (Bool × List Char) :=
  if chunk.head? = some ']' ∧ 0 < nrange then .ok (mtch, chunk.tail)
  else if getEscOk chunk then
    let lo := getEscChar chunk
    let chunk1 := getEscRest chunk
    if chunk1.head? = some '-' then
      if getEscOk chunk1.tail then
        let hi := getEscChar chunk1.tail
        parseRanges r (mtch || (decide (lo ≤ r) && decide (r ≤ hi))) (nrange + 1)
          (getEscRest chunk1.tail)
      else .error ()
    else
      parseRanges r (mtch || (decide (lo ≤ r) && decide (r ≤ lo))) (nrange + 1) chunk1
  else .error ()
  termination_by chunk.length
  decreasing_by
  all_goals rename_i h1 h2
  · rename_i h3
    show (getEscRest ((getEscRest chunk).tail)).length < chunk.length
    have e1 : (getEscRest ((getEscRest chunk).tail)).length <
        (getEscRest chunk).tail.length := getEscRest_length h2
    have e2 : (getEscRest chunk).length < chunk.length := getEscRest_length h3
    have e3 : (getEscRest chunk).length ≠ 0 := by
      intro he
      rw [List.length_eq_zero] at he
      have h1' : (getEscRest chunk).head? = some '-' := h1
      rw [he] at h1'
      simp at h1'
    have e4 : (getEscRest chunk).tail.length = (getEscRest chunk).length - 1 :=
      List.length_tail _
    omega
  · show (getEscRest chunk).length < chunk.length
    exact getEscRest_length h1

theorem parseRanges_length :
    ∀ (n : Nat) (r : Char) (m : Bool) (k : Nat) (chunk : List Char),
      chunk.length ≤ n →
      ∀ res rest, parseRanges r m k chunk = .ok (res, rest) →
        rest.length < chunk.length := by
  intro n
  induction n with
  | zero =>
      intro r m k chunk hlen res rest h
      have hc : chunk = [] := by
        cases chunk with
        | nil => rfl
        | cons a tl => simp at hlen
      subst hc
      rw [parseRanges] at h
      simp [getEscOk, getEsc] at h
  | succ n ih =>
      intro r m k chunk hlen res rest h
      rw [parseRanges] at h
      split at h
      · rename_i hstop
        obtain ⟨hhead, -⟩ := hstop
        simp only [Except.ok.injEq, Prod.mk.injEq] at h
        obtain ⟨-, hrest⟩ := h
        subst hrest
        cases chunk with
        | nil => simp at hhead
        | cons a tl => simp
      · split at h
        · rename_i hok
          dsimp only at h
          split at h
          · rename_i hdash
            split at h
            · rename_i hok2
              have e1 := getEscRest_length hok
              have e2 := getEscRest_length hok2
              have e3 : (getEscRest chunk).length ≠ 0 := by
                intro he
                rw [List.length_eq_zero] at he
                rw [he] at hdash
                simp at hdash
              have e4 : (getEscRest chunk).tail.length =
                  (getEscRest chunk).length - 1 := List.length_tail _
              have h3 := ih r _ _ _ (by omega) res rest h
              omega
            · simp at h
          · rename_i hdash
            have e1 := getEscRest_length hok
            have h3 := ih r _ _ _ (by omega) res rest h
            omega
        · simp at h

/-- The character-class step of `matchChunk`: strip an optional leading
`^` (negation), parse the ranges against the probed rune `r`, and
return whether `match == negated` (the condition that marks the chunk
match as failed) together with the chunk remaining after the class. -/
def classMatch (r : Char) (ctl : List Char) : Except Unit (Bool × List Char) :=
  match ctl with
  | '^' :: t =>
      (parseRanges r false 0 t).map (fun p => (p.1 == true, p.2))
  | _ =>
      (parseRanges r false 0 ctl).map (fun p => (p.1 == false, p.2))

/-- Did `classMatch` succeed? -/
def classMatchOk (r : Char) (ctl : List Char) : Bool :=
  match classMatch r ctl with
  | .ok _ => true
  | .error _ => false

/-- The failed-flag contribution of a successful `classMatch`. -/
def classMatchBad (r : Char) (ctl : List Char) : Bool :=
  match classMatch r ctl with
  | .ok p => p.1
  | .error _ => false

/-- The chunk remaining after a successful `classMatch`. -/
def classMatchRest (r : Char) (ctl : List Char) : List Char :=
  match classMatch r ctl with
  | .ok p => p.2
  | .error _ => []

theorem classMatchRest_length {r : Char} {ctl : List Char}
    (h : classMatchOk r ctl = true) :
    (classMatchRest r ctl).length < ctl.length := by
  match hcm : classMatch r ctl with
  | .error e =>
      unfold classMatchOk at h
      rw [hcm] at h
      simp at h
  | .ok (b, rest) =>
      have hrest : classMatchRest r ctl = rest := by
        unfold classMatchRest
        rw [hcm]
      rw [hrest]
      unfold classMatch at hcm
      split at hcm
      · rename_i t
        match hp : parseRanges r false 0 t with
        | .error e => rw [hp] at hcm; simp [Except.map] at hcm
        | .ok (m, rest2) =>
            rw [hp] at hcm
            simp only [Except.map, Except.ok.injEq, Prod.mk.injEq] at hcm
            obtain ⟨-, hr⟩ := hcm
            subst hr
            have := parseRanges_length t.length r false 0 t le_rfl m rest2 hp
            simp
            omega
      · match hp : parseRanges r false 0 ctl with
        | .error e => rw [hp] at hcm; simp [Except.map] at hcm
        | .ok (m, rest2) =>
            rw [hp] at hcm
            simp only [Except.map, Except.ok.injEq, Prod.mk.injEq] at hcm
            obtain ⟨-, hr⟩ := hcm
            subst hr
            exact parseRanges_length ctl.length r false 0 ctl le_rfl m rest2 hp

/-- `matchChunk` of match.go: match a chunk (which contains no unescaped
stars) against the beginning of `s`.  `failed` records that matching has
already failed; the rest of the chunk is still consumed so syntax
errors are reported.  On success returns the remaining name and `true`;
on plain mismatch `([], false)`; `ErrBadPattern` on a malformed chunk.
The probed character defaults (`Char.ofNat 0`, `headD`) are taken only
on paths where the Go code leaves the rune at its zero value or cannot
reach the read (`failed` covers the empty name). -/
def matchChunk : List Char → List Char → Bool → Except Unit (List Char × Bool)
  | [], s, failed => if failed then .ok ([], false) else .ok (s, true)
  | '[' :: ctl, s, failed =>
      -- character class; when matching already failed (or the name is
      -- exhausted) the probed rune stays at its zero value and the name
      -- is not consumed, but the class is still parsed for syntax errors
      if failed = true ∨ s = [] then
        if classMatchOk (Char.ofNat 0) ctl then
          matchChunk (classMatchRest (Char.ofNat 0) ctl) s true
        else .error ()
      else
        if classMatchOk (s.headD (Char.ofNat 0)) ctl then
          matchChunk (classMatchRest (s.headD (Char.ofNat 0)) ctl) s.tail
            (classMatchBad (s.headD (Char.ofNat 0)) ctl)
        else .error ()
  | '?' :: ctl, s, failed =>
      if failed = true ∨ s = [] then matchChunk ctl s true
      else matchChunk ctl s.tail (decide (s.headD (Char.ofNat 0) = '/'))
  | '\\' :: ctl, s, failed =>
      if ctl = [] then .error ()
      else
        if failed = true ∨ s = [] then matchChunk ctl.tail s true
        else matchChunk ctl.tail s.tail
          (decide (ctl.headD (Char.ofNat 0) ≠ s.headD (Char.ofNat 0)))
  | c :: ctl, s, failed =>
      if failed = true ∨ s = [] then matchChunk ctl s true
      else matchChunk ctl s.tail (decide (c ≠ s.headD (Char.ofNat 0)))
  termination_by c s f => c.length
  decreasing_by
  all_goals
    first
    | (rename_i hok
       have h1 := classMatchRest_length hok
       simp only [List.length_cons]
       omega)
    | (simp_all [List.length_tail]
       try omega)

/-- Matching a chunk never lengthens the name: the remainder returned
by `matchChunk` is drawn from the input name. -/
theorem matchChunk_rest_le (chunk s : List Char) (f : Bool) :
    ∀ t b, matchChunk chunk s f = .ok (t, b) → t.length ≤ s.length := by
  induction chunk, s, f using matchChunk.induct <;> intro t b h
  all_goals simp only [matchChunk] at h
  all_goals try (simp_all; done)
  all_goals try (split at h)
  all_goals try (simp_all; done)
  all_goals
    first
    | (rename_i ih hcond
       have hle := ih _ _ h
       simp only [List.length_tail] at hle ⊢
       omega)
    | (rename_i ih
       have hle := ih _ _ h
       simp only [List.length_tail] at hle ⊢
       omega)

/-- The leading-star scan of `scanChunk`: strip leading `*`s, reporting
whether there was at least one. -/
def scanStars : List Char → Bool × List Char
  | '*' :: tl => (true, (scanStars tl).2)
  | l => (false, l)

/-- The body scan of `scanChunk`: copy characters into the chunk until
an unescaped `*` outside a character class, tracking the `inrange`
flag, with backslash consuming the following character. -/
def scanBody : Bool → List Char → List Char × List Char
  | _, [] => ([], [])
  | inrange, '\\' :: tl =>
      (match tl with
      | d :: dtl =>
          let p := scanBody inrange dtl
          ('\\' :: d :: p.1, p.2)
      | [] => (['\\'], []))
  | _, '[' :: tl =>
      let p := scanBody true tl
      ('[' :: p.1, p.2)
  | _, ']' :: tl =>
      let p := scanBody false tl
      (']' :: p.1, p.2)
  | inrange, '*' :: tl =>
      if inrange then
        let p := scanBody true tl
        ('*' :: p.1, p.2)
      else ([], '*' :: tl)
  | inrange, c :: tl =>
      let p := scanBody inrange tl
      (c :: p.1, p.2)

/-- `scanChunk` of match.go: split the pattern into a leading-star flag,
the next star-free chunk, and the remaining pattern. -/
def scanChunk (pattern : List Char) : Bool × List Char × List Char :=
  let sp := scanStars pattern
  let bp := scanBody false sp.2
  (sp.1, bp.1, bp.2)

theorem scanStars_rest_le (l : List Char) : (scanStars l).2.length ≤ l.length := by
  induction l with
  | nil => simp [scanStars]
  | cons c tl ih =>
      by_cases hc : c = '*'
      · subst hc
        calc (scanStars ('*' :: tl)).2.length = (scanStars tl).2.length := by
              rw [scanStars]
          _ ≤ tl.length := ih
          _ ≤ ('*' :: tl).length := by simp
      · have : scanStars (c :: tl) = (false, c :: tl) := by
          rw [scanStars.eq_def]
          split
          · rename_i heq
            injection heq with h1 h2
            exact absurd h1 hc
          · rfl
        rw [this]

theorem scanBody_rest_le_aux :
    ∀ (n : Nat) (inr : Bool) (l : List Char), l.length ≤ n →
      (scanBody inr l).2.length ≤ l.length := by
  intro n
  induction n with
  | zero =>
      intro inr l h
      match l with
      | [] => simp [scanBody]
      | c :: tl => simp at h
  | succ n ih =>
      intro inr l hlen
      match l with
      | [] => simp [scanBody]
      | c :: tl =>
        simp only [List.length_cons] at hlen
        by_cases h1 : c = '\\'
        · subst h1
          match tl with
          | [] => simp [scanBody]
          | d :: dtl =>
              have hd := ih inr dtl (by simp at hlen; omega)
              simp [scanBody]
              omega
        · by_cases h2 : c = '['
          · subst h2
            have ht := ih true tl (by omega)
            simp [scanBody]
            omega
          · by_cases h3 : c = ']'
            · subst h3
              have ht := ih false tl (by omega)
              simp [scanBody]
              omega
            · by_cases h4 : c = '*'
              · subst h4
                cases inr with
                | true =>
                    have ht := ih true tl (by omega)
                    simp [scanBody]
                    omega
                | false =>
                    simp [scanBody]
              · have ht := ih inr tl (by omega)
                simp [scanBody, h1, h2, h3, h4]
                omega

theorem scanBody_rest_le (inr : Bool) (l : List Char) :
    (scanBody inr l).2.length ≤ l.length :=
  scanBody_rest_le_aux l.length inr l le_rfl

theorem scanStars_ne_star {c : Char} (tl : List Char) (hc : c ≠ '*') :
    scanStars (c :: tl) = (false, c :: tl) := by
  rw [scanStars.eq_def]
  split
  · rename_i heq
    injection heq with h1 h2
    exact absurd h1 hc
  · rfl

theorem scanBody_cons_ne_star {c : Char} (tl : List Char) (hc : c ≠ '*') :
    (scanBody false (c :: tl)).2.length ≤ tl.length := by
  by_cases h1 : c = '\\'
  · subst h1
    match tl with
    | [] => simp [scanBody]
    | d :: dtl =>
        have hd := scanBody_rest_le false dtl
        simp [scanBody]
        omega
  · by_cases h2 : c = '['
    · subst h2
      have ht := scanBody_rest_le true tl
      simp [scanBody]
      omega
    · by_cases h3 : c = ']'
      · subst h3
        have ht := scanBody_rest_le false tl
        simp [scanBody]
        omega
      · have ht := scanBody_rest_le false tl
        simp [scanBody, h1, h2, h3, hc]
        omega

theorem scanChunk_rest_lt (c : Char) (tl : List Char) :
    (scanChunk (c :: tl)).2.2.length < (c :: tl).length := by
  by_cases hc : c = '*'
  · subst hc
    have h1 : (scanStars ('*' :: tl)).2 = (scanStars tl).2 := by
      rw [scanStars]
    have h2 := scanStars_rest_le tl
    have h3 := scanBody_rest_le false (scanStars ('*' :: tl)).2
    simp only [scanChunk, List.length_cons]
    rw [h1] at h3 ⊢
    omega
  · have h1 := scanStars_ne_star tl hc
    have h2 := scanBody_cons_ne_star tl hc
    simp only [scanChunk, h1, List.length_cons]
    omega

/-- Did `matchChunk` succeed (no `ErrBadPattern`)? -/
def matchChunkOk (chunk s : List Char) (f : Bool) : Bool :=
  match matchChunk chunk s f with
  | .ok _ => true
  | .error _ => false

/-- The remaining name of a successful `matchChunk`. -/
def matchChunkT (chunk s : List Char) (f : Bool) : List Char :=
  match matchChunk chunk s f with
  | .ok p => p.1
  | .error _ => []

/-- The success flag of a successful `matchChunk`. -/
def matchChunkB (chunk s : List Char) (f : Bool) : Bool :=
  match matchChunk chunk s f with
  | .ok p => p.2
  | .error _ => false

theorem matchChunkT_le (chunk s : List Char) (f : Bool) :
    (matchChunkT chunk s f).length ≤ s.length := by
  unfold matchChunkT
  match hmc : matchChunk chunk s f with
  | .error e => simp
  | .ok (t, b) => exact matchChunk_rest_le chunk s f t b hmc

/-- The remainder-validation loop at the end of `Match` (match.go):
before returning a plain non-match, the rest of the pattern is scanned
chunk by chunk (each chunk matched against the empty name) so that a
malformed pattern still reports `ErrBadPattern`. -/
def validateRest : List Char → Except Unit Bool
  | [] => .ok false
  | c :: tl =>
    if matchChunkOk (scanChunk (c :: tl)).2.1 [] false then
      validateRest (scanChunk (c :: tl)).2.2
    else .error ()
  termination_by p => p.length
  decreasing_by
  exact scanChunk_rest_lt _ _

mutual

/-- `Match` of path/filepath (match.go) over character lists: reports
whether the whole name matches the pattern, or `ErrBadPattern` for a
malformed pattern.  A chunk between stars is matched greedily at the
current position; a preceding star lets the chunk slide forward through
the name (never across a separator). -/
def goMatchAux (pattern name : List Char) : Except Unit Bool :=
  match pattern with
  | [] => .ok name.isEmpty
  | c :: tl =>
    let star := (scanChunk (c :: tl)).1
    let chunk := (scanChunk (c :: tl)).2.1
    let rest := (scanChunk (c :: tl)).2.2
    if star && chunk.isEmpty then
      -- Trailing * matches the rest of the name unless it has a separator.
      .ok (!(name.contains '/'))
    else if matchChunkOk chunk name false then
      let t := matchChunkT chunk name false
      if matchChunkB chunk name false && (t.isEmpty || !rest.isEmpty) then
        goMatchAux rest t
      else if star then starLoop chunk rest name
      else validateRest rest
    else .error ()
  termination_by (pattern.length, name.length, 1)
  decreasing_by
  all_goals apply Prod.Lex.left
  all_goals
    (have hlt := scanChunk_rest_lt b bs
     have hc : (b :: bs).length = bs.length + 1 := rfl
     omega)

/-- The star inner loop of `Match`: skip one character of the name at a
time (never a separator) and retry the chunk at each position. -/
def starLoop (chunk rest name : List Char) : Except Unit Bool :=
  if name.isEmpty then validateRest rest
  else if name.headD (Char.ofNat 0) = '/' then validateRest rest
  else if matchChunkOk chunk name.tail false then
    let t := matchChunkT chunk name.tail false
    if matchChunkB chunk name.tail false then
      if rest.isEmpty && !t.isEmpty then starLoop chunk rest name.tail
      else goMatchAux rest t
    else starLoop chunk rest name.tail
  else .error ()
  termination_by (rest.length, name.length, 0)
  decreasing_by
  all_goals apply Prod.Lex.right
  all_goals apply Prod.Lex.left
  all_goals
    (have ht := List.length_tail name
     have hne : name ≠ [] := by
       intro he
       simp_all
     have hlen : name.length ≠ 0 := by
       intro h0
       exact hne (List.length_eq_zero.mp h0)
     first
     | (have hle := matchChunkT_le chunk name.tail false
        omega)
     | omega)

end

/-- `filepath.Match(pattern, name)`: `Except.error ()` is
`ErrBadPattern`, `Except.ok b` reports whether the name matches. -/
def goMatch (pattern name : String) : Except Unit Bool :=
  goMatchAux pattern.toList name.toList

/-! ## File listing (ssh commands file: `parseLsOutput`, `filterByPatterns`,
`ListFiles`)

Strings are processed through `List Char`; the Go originals work on
bytes, which coincides for the ASCII material handled here. -/

/-- `unicode.IsSpace` restricted to the ASCII space characters
(space, tab, newline, vertical tab, form feed, carriage return). -/
def goIsSpace (c : Char) : Bool :=
  c = ' ' || c = '\t' || c = '\n' || Char.ofNat 11 = c || Char.ofNat 12 = c || c = '\r'

/-- `strings.TrimSpace`: drop leading and trailing whitespace. -/
def goTrimSpace (s : String) : String :=
  String.mk (((s.toList.dropWhile goIsSpace).reverse.dropWhile goIsSpace).reverse)

/-- Accumulator loop for `strings.Fields`. -/
def fieldsGo : List Char → List Char → List String
  | acc, [] => if acc.isEmpty then [] else [String.mk acc.reverse]
  | acc, c :: tl =>
    if goIsSpace c then
      if acc.isEmpty then fieldsGo [] tl
      else String.mk acc.reverse :: fieldsGo [] tl
    else fieldsGo (c :: acc) tl

/-- `strings.Fields`: split around runs of whitespace, no empty fields. -/
def goFields (s : String) : List String :=
  fieldsGo [] s.toList

/-- Accumulator loop for splitting on newlines. -/
def splitLinesGo : List Char → List Char → List String
  | acc, [] => [String.mk acc.reverse]
  | acc, c :: tl =>
    if c = '\n' then String.mk acc.reverse :: splitLinesGo [] tl
    else splitLinesGo (c :: acc) tl

/-- `strings.Split(output, "\n")`. -/
def goSplitNewline (s : String) : List String :=
  splitLinesGo [] s.toList

/-- `strings.HasPrefix`. -/
def goHasPrefix (s pre : String) : Bool :=
  isPrefixOfL pre.toList s.toList

/-- `strings.Join(elems, " ")`. -/
def joinSpace : List String → String
  | [] => ""
  | [x] => x
  | x :: xs => x ++ " " ++ joinSpace xs

/-- All-decimal-digit string to its value. -/
def digitsToNat : List Char → Option Nat
  | [] => none
  | [c] => if c.isDigit then some (c.toNat - 48) else none
  | c :: tl =>
    if c.isDigit then
      match digitsToNat tl with
      | some n => some ((c.toNat - 48) * 10 ^ tl.length + n)
      | none => none
    else none

/-- `strconv.ParseInt(s, 10, 64)` with the error discarded, as the
listing parser does (`size, _ := strconv.ParseInt(...)`): an optional
sign and decimal digits; 0 on a syntax error; the value clamped to the
int64 range on a range error (Go returns the clamped value with
`ErrRange`). -/
def goParseInt64 (s : String) : Int :=
  let (neg, ds) :=
    match s.toList with
    | '+' :: tl => (false, tl)
    | '-' :: tl => (true, tl)
    | l => (false, l)
  match digitsToNat ds with
  | none => 0
  | some n =>
    let v : Int := if neg then -(n : Int) else (n : Int)
    if v > (2 ^ 63 - 1 : Int) then (2 ^ 63 - 1 : Int)
    else if v < -(2 ^ 63 : Int) then -(2 ^ 63 : Int)
    else v

/-- `ssh.FileInfo` (commands file).  `ModTime` keeps the normalized
"YYYY-MM-DD HH:MM:SS" string handed to `time.Parse`, modelling the
parsed `time.Time` by its defining text (the claims never inspect it). -/
structure FileInfo where
  Name : String
  Size : Int
  ModTime : String
  IsDir : Bool
deriving DecidableEq, Repr

/-- The `strings.Index(dateStr, ".")`-guarded truncation of the
nanosecond part: cut at the first `.` only when it is not the first
character. -/
def truncAtDot (s : String) : String :=
  match (s.toList.findIdx? (· = '.')) with
  | some i => if 0 < i then String.mk (s.toList.take i) else s
  | none => s

/-- The body of `parseLsOutput`'s per-line loop: `none` plays
`continue`.  A line is trimmed; blank lines and the `total` header are
skipped; lines with fewer than 9 whitespace-separated fields are
skipped; the name is fields 9+ rejoined with single spaces; `.` and
`..` are dropped; the size is field 5 parsed with errors ignored; the
modification time is fields 6-7 with the nanoseconds truncated; the
entry is a directory when the permission field starts with `d`. -/
def parseLsLine (raw : String) : Option FileInfo :=
  let line := goTrimSpace raw
  if line = "" || goHasPrefix line "total" then none
  else
    let fields := goFields line
    if fields.length < 9 then none
    else
      let name := joinSpace (fields.drop 8)
      if name = "." || name = ".." then none
      else
        let size := goParseInt64 (fields.getD 4 "")
        let dateStr := truncAtDot (fields.getD 5 "" ++ " " ++ fields.getD 6 "")
        let isDir := (fields.getD 0 "").toList.headD (Char.ofNat 0) = 'd'
        some { Name := name, Size := size, ModTime := dateStr, IsDir := isDir }

/-- `parseLsOutput` (commands file): split the listing blob into lines
and keep the entries of the lines the loop does not skip. -/
def parseLsOutput (output : String) : List FileInfo :=
  (goSplitNewline output).filterMap parseLsLine

/-- The `err == nil && matched` test of `filterByPatterns`: a pattern
counts as matching only when `filepath.Match` succeeds with `true`, so
a malformed pattern never matches. -/
def matchOk (p name : String) : Bool :=
  match goMatch p name with
  | .ok b => b
  | .error _ => false

/-- `filterByPatterns` (commands file): keep the files whose name
matches at least one pattern (the inner loop's first-match `break` is
the same as an any-of filter). -/
def filterByPatterns (files : List FileInfo) (patterns : List String) :
    List FileInfo :=
  files.filter (fun f => patterns.any (fun p => matchOk p f.Name))

/-- Lexicographic (byte-wise, via char codes) string order: Go's
`s < t` comparison is byte-lexicographic, and `lexLE` is the
corresponding non-strict order over `List Char` (the two agree on the
ASCII names handled here). -/
def lexLE : List Char → List Char → Bool
  | [], _ => true
  | _ :: _, [] => false
  | a :: as, b :: bs =>
    if a.toNat = b.toNat then lexLE as bs else decide (a.toNat < b.toNat)

theorem lexLE_total : ∀ as bs, lexLE as bs = true ∨ lexLE bs as = true := by
  intro as
  induction as with
  | nil => intro bs; left; rfl
  | cons a as ih =>
      intro bs
      cases bs with
      | nil => right; rfl
      | cons b bs =>
          by_cases h : a.toNat = b.toNat
          · rcases ih bs with h1 | h1
            · left
              simp [lexLE, h, h1]
            · right
              simp [lexLE, h.symm, h1]
          · by_cases h2 : a.toNat < b.toNat
            · left
              simp [lexLE, h, h2]
            · right
              have h3 : b.toNat < a.toNat := by omega
              simp [lexLE, Ne.symm h, h3]

theorem lexLE_trans : ∀ as bs cs, lexLE as bs = true → lexLE bs cs = true →
    lexLE as cs = true := by
  intro as
  induction as with
  | nil => intro bs cs h1 h2; rfl
  | cons a as ih =>
      intro bs cs h1 h2
      cases bs with
      | nil => simp [lexLE] at h1
      | cons b bs =>
          cases cs with
          | nil => simp [lexLE] at h2
          | cons c cs =>
              by_cases hab : a.toNat = b.toNat <;>
                by_cases hbc : b.toNat = c.toNat
              · have hac : a.toNat = c.toNat := by omega
                simp only [lexLE, hab, hbc, if_pos] at h1 h2
                simp only [lexLE, hac, if_pos]
                exact ih bs cs h1 h2
              · simp only [lexLE, hab, if_pos] at h1
                simp only [lexLE, if_neg hbc, decide_eq_true_eq] at h2
                have hac : a.toNat < c.toNat := by omega
                simp [lexLE, hac]
                omega
              · simp only [lexLE, if_neg hab, decide_eq_true_eq] at h1
                have hac : a.toNat < c.toNat := by omega
                simp [lexLE, hac]
                omega
              · simp only [lexLE, if_neg hab, decide_eq_true_eq] at h1
                simp only [lexLE, if_neg hbc, decide_eq_true_eq] at h2
                have hac : a.toNat < c.toNat := by omega
                simp [lexLE, hac]
                omega

/-- The name order used by `ListFiles`'s `sort.Slice` comparator
`files[i].Name < files[j].Name`. -/
def fileLE (a b : FileInfo) : Prop :=
  lexLE a.Name.toList b.Name.toList = true

instance : DecidableRel fileLE := fun a b =>
  inferInstanceAs (Decidable (_ = true))

instance fileLE_total : IsTotal FileInfo fileLE :=
  ⟨fun a b => lexLE_total a.Name.toList b.Name.toList⟩

instance fileLE_trans : IsTrans FileInfo fileLE :=
  ⟨fun _ _ _ hab hbc => lexLE_trans _ _ _ hab hbc⟩

/-- The pure tail of `ListFiles` (commands file, lines 34-53) after the
remote `ls -la --time-style=full-iso` command produced `output`: parse,
filter by the glob patterns when any are given, and sort ascending by
name (`sort.Slice` only promises a sorted permutation, modelled by
insertion sort). -/
def listFilesPure (output : String) (patterns : List String) : List FileInfo :=
  let files := parseLsOutput output
  let files := if 0 < patterns.length then filterByPatterns files patterns else files
  List.insertionSort fileLE files

/-- `ListFiles` with the remote command's outcome passed explicitly:
a command failure is wrapped and propagated, otherwise the pure
pipeline runs on its output. -/
def ListFiles (runResult : Except CmdError String) (dir : String)
    (patterns : List String) : Except (CmdError × String) (List FileInfo) :=
  match runResult with
  | .error e => .error (e, "listing " ++ dir)
  | .ok output => .ok (listFilesPure output patterns)

/-! ## Connection pool (internal/ssh/client.go)

Sessions are identified by numeric ids; the pool's `map[string]*ssh.Client`
is an association list keyed by the `user@host:port` string.  The network
primitives (key file read, agent socket, TCP dial, SSH handshake, the
keepalive `SendRequest`) are external: their outcomes come from a world
record, and the externally observable actions performed by a call are
returned as a trace. -/

/-- The key `fmt.Sprintf("%s@%s:%d", srv.User, srv.Host, srv.Port)`
used by `GetClient`. -/
def poolKey (srv : ServerConfig) : String :=
  srv.User ++ "@" ++ srv.Host ++ ":" ++ toString srv.Port

/-- The address `fmt.Sprintf("%s:%d", srv.Host, srv.Port)` used by `dial`. -/
def dialAddr (srv : ServerConfig) : String :=
  srv.Host ++ ":" ++ toString srv.Port

/-- Externally observable actions of `GetClient`/`dial`/`buildAuth`. -/
inductive Action
  | readKeyFile (path : String)
  | dialAgent
  | tcpDial (addr : String)
  | handshake (addr : String)
  | closeTCP
  | closeAgent
  | closeSSHConn
  /-- `c.Close()` on a cached client found dead -/
  | closeClient (id : Nat)
deriving DecidableEq, Repr

/-- Errors of `dial`, one constructor per `fmt.Errorf` site in
client.go's `dial` (the message of a failed `buildAuth` is carried
verbatim inside `authSetup`). -/
inductive DialError
  | authSetup (host msg : String)
  | tcpDialErr (addr msg : String)
  | handshakeErr (addr msg : String)
  /-- the post-handshake `ctx.Err() != nil` re-check fired -/
  | ctxCancelled (addr : String)
deriving DecidableEq, Repr

/-- Outcomes of the external primitives used by one `dial` call. -/
structure DialWorld where
  /-- result of `os.ReadFile(auth.KeyPath)`: the key bytes or an error -/
  readKeyResult : Except String String
  /-- result of `ssh.ParsePrivateKey` on those bytes -/
  parseKeyOk : Except String Unit
  /-- value of the `SSH_AUTH_SOCK` environment variable -/
  sshAuthSock : String
  /-- result of dialing the agent socket -/
  agentDialOk : Except String Unit
  /-- result of `d.DialContext(ctx, "tcp", addr)` -/
  tcpDialOk : Except String Unit
  /-- result of `ssh.NewClientConn` (the SSH handshake) -/
  handshakeOk : Except String Unit
  /-- whether `ctx.Err() != nil` at the post-handshake re-check
  (client.go:144) -/
  ctxErrAfterHandshake : Bool
  /-- id of the session produced on success -/
  newClientId : Nat

/-- Embedding of `buildAuth` (client.go:158-191).  Returns either an
error message or a flag saying whether an agent socket connection is
held (for the "agent" method), together with the actions performed. -/
def buildAuth (w : DialWorld) (auth : AuthConfig) :
    Except String Bool × List Action :=
  if auth.Method = "key" then
    match w.readKeyResult with
    | .error e =>
        (.error ("reading key " ++ auth.KeyPath ++ ": " ++ e),
         [.readKeyFile auth.KeyPath])
    | .ok _ =>
      match w.parseKeyOk with
      | .error e =>
          (.error ("parsing key " ++ auth.KeyPath ++ ": " ++ e),
           [.readKeyFile auth.KeyPath])
      | .ok _ => (.ok false, [.readKeyFile auth.KeyPath])
  else if auth.Method = "agent" then
    if w.sshAuthSock = "" then (.error "SSH_AUTH_SOCK not set", [])
    else
      match w.agentDialOk with
      | .error e => (.error ("connecting to SSH agent: " ++ e), [.dialAgent])
      | .ok _ => (.ok true, [.dialAgent])
  else if auth.Method = "password" then
    (.error "password auth requires interactive input; use key or agent instead", [])
  else
    (.error ("unknown auth method: " ++ auth.Method), [])

/-- Embedding of `dial` (client.go:86-154): build the auth methods, dial
TCP, run the SSH handshake (interruptible by cancellation), then
re-check cancellation before declaring success.  Returns the session id
or an error, plus the action trace. -/
def dial (w : DialWorld) (srv : ServerConfig) :
    Except DialError Nat × List Action :=
  match buildAuth w srv.Auth with
  | (.error e, acts) => (.error (.authSetup srv.Host e), acts)
  | (.ok hasAgent, acts) =>
    let addr := dialAddr srv
    match w.tcpDialOk with
    | .error e =>
        (.error (.tcpDialErr addr e),
         acts ++ [.tcpDial addr] ++ (if hasAgent then [.closeAgent] else []))
    | .ok _ =>
      match w.handshakeOk with
      | .error e =>
          (.error (.handshakeErr addr e),
           acts ++ [.tcpDial addr, .handshake addr, .closeTCP] ++
             (if hasAgent then [.closeAgent] else []))
      | .ok _ =>
        if w.ctxErrAfterHandshake then
          (.error (.ctxCancelled addr),
           acts ++ [.tcpDial addr, .handshake addr, .closeSSHConn] ++
             (if hasAgent then [.closeAgent] else []))
        else
          (.ok w.newClientId, acts ++ [.tcpDial addr, .handshake addr])

/-- Which `select` case fired while `GetClient` probed a cached client
(client.go:47-59): the keepalive goroutine's result arrived, the
caller's context was done first, or the 5-second probe timer fired. -/
inductive ProbeWinner
  | done
  | ctxDone
  | timeout
deriving DecidableEq, Repr

/-- Outcomes of the external events of one `GetClient` call. -/
structure GCWorld where
  probeWinner : ProbeWinner
  /-- result of `c.SendRequest("keepalive@openssh.com", ...)` if the
  `done` case fired -/
  keepaliveErr : Option String
  dialWorld : DialWorld

/-- Errors of `GetClient`: the caller's `ctx.Err()` returned when the
probe raced it, or a `dial` failure. -/
inductive GCError
  | ctxErr
  | dialFailed (e : DialError)
deriving DecidableEq, Repr

/-- The pool's `map[string]*ssh.Client`, keyed by `poolKey`. -/
def PoolMap := List (String × Nat)

/-- `delete(m, key)`. -/
def poolErase (key : String) : PoolMap → PoolMap
  | [] => []
  | kv :: tl => if kv.1 = key then poolErase key tl else kv :: poolErase key tl

/-- `m[key] = id`. -/
def poolInsert (key : String) (id : Nat) (m : PoolMap) : PoolMap :=
  (key, id) :: poolErase key m

/-- `m[key]` lookup. -/
def poolFind (key : String) : PoolMap → Option Nat
  | [] => none
  | kv :: tl => if kv.1 = key then some kv.2 else poolFind key tl

/-- Embedding of `Pool.GetClient` (client.go:32-84).  If a cached client
exists for the key its keepalive probe is raced against the caller's
context and a timer; on probe success the cached client is returned, on
context completion the context error is returned, and on probe failure
or timeout the dead client is closed, removed (guarded by the
`p.clients[key] == c` re-check), and a fresh dial stores its result
under the key.  With no cached client the call dials directly. -/
def GetClient (w : GCWorld) (pool : PoolMap) (srv : ServerConfig) :
    Except GCError Nat × PoolMap × List Action :=
  let key := poolKey srv
  match poolFind key pool with
  | some c =>
    match w.probeWinner, w.keepaliveErr with
    | .done, none => (.ok c, pool, [])
    | .ctxDone, _ => (.error .ctxErr, pool, [])
    | .done, some _ | .timeout, _ =>
      let pool1 := if poolFind key pool = some c then poolErase key pool else pool
      match dial w.dialWorld srv with
      | (.error e, dacts) =>
          (.error (.dialFailed e), pool1, Action.closeClient c :: dacts)
      | (.ok nc, dacts) =>
          (.ok nc, poolInsert key nc pool1, Action.closeClient c :: dacts)
  | none =>
    match dial w.dialWorld srv with
    | (.error e, dacts) => (.error (.dialFailed e), pool, dacts)
    | (.ok nc, dacts) => (.ok nc, poolInsert key nc pool, dacts)

/-- Skip `n` whitespace-delimited fields and the whitespace following
them.  Used only by `specFilenameAfter8Fields`. -/
def dropFieldsL : Nat → List Char → List Char
  | 0, l => l.dropWhile goIsSpace
  | n + 1, l =>
      dropFieldsL n ((l.dropWhile goIsSpace).dropWhile (fun c => !goIsSpace c))

/-- The specification's wording for the kept filename — "the remainder
of the line after the 8 fixed leading fields" — formalized for
comparison with `parseLsLine`: skip eight whitespace-delimited fields
of the trimmed line and the whitespace separating the eighth field
from the name; what remains is the filename, verbatim. -/
def specFilenameAfter8Fields (line : String) : String :=
  String.mk (dropFieldsL 8 (goTrimSpace line).toList)

/-! ## Stale-result model (internal/ui/app.go: `onServerSelected`,
`startConnection`, `loadFiles`)

Two targets A and B are selected in turn; each selection spawns a
`loadFiles` goroutine.  The interleaving of the goroutines with the
selections is an explicit event list; each goroutine's external
outcomes (its `GetClient` world and its `ListFiles` result) come from a
per-task oracle.  A run records which UI updates were enqueued.  The
`ok` flag checks that the run only uses genuinely possible outcomes:
the keepalive select's `ctx.Done()` case can fire only if that task's
context was already cancelled and a cached client existed (all other
oracle outcomes are reachable regardless of cancellation: the
keepalive-success and dial-success paths of `GetClient` never re-check
the context before returning). -/

/-- The two targets of the stale-suppression scenario. -/
inductive Srv
  | A
  | B
deriving DecidableEq, Repr

/-- Program counter of one `loadFiles` goroutine: not yet spawned;
spawned but `GetClient` not yet resolved; `GetClient` returned a
client; `GetClient` returned an error (the `if err != nil` branch is
about to run); finished. -/
inductive TaskPC
  | idle
  | ready
  | gotClient
  | gcFailed
  | done
deriving DecidableEq, Repr

/-- UI updates `loadFiles` can enqueue, tagged with the target the
operation was started for. -/
inductive Pub
  | listing (sv : Srv)
  | connErrUI (sv : Srv)
  | sudoPrompt (sv : Srv)
  | listErrUI (sv : Srv)
deriving DecidableEq, Repr

/-- Per-task oracle: the pool snapshot and world its `GetClient` call
sees, the target it was started for, and its `ListFiles` outcome. -/
structure TaskOracle where
  pool : PoolMap
  gw : GCWorld
  srv : ServerConfig
  listOk : Bool
  /-- when `ListFiles` fails: does the error message contain
  "sudo authentication failed"? -/
  listSudoErr : Bool

/-- Coordinator state of the scenario. -/
structure C2State where
  current : Option Srv
  connectOwner : Option Srv
  ctxA : Bool
  ctxB : Bool
  pcA : TaskPC
  pcB : TaskPC
  published : List Pub
  stopped : Bool
  ok : Bool
deriving DecidableEq, Repr

/-- The initial coordinator state. -/
def c2Init : C2State :=
  { current := none, connectOwner := none, ctxA := false, ctxB := false
    pcA := .idle, pcB := .idle, published := [], stopped := false, ok := true }

/-- This task's context-cancelled flag. -/
def ctxOf (s : C2State) : Srv → Bool
  | .A => s.ctxA
  | .B => s.ctxB

/-- Set this task's context-cancelled flag. -/
def setCtx (sv : Srv) (b : Bool) (s : C2State) : C2State :=
  match sv with
  | .A => { s with ctxA := b }
  | .B => { s with ctxB := b }

/-- This task's program counter. -/
def pcOf (s : C2State) : Srv → TaskPC
  | .A => s.pcA
  | .B => s.pcB

/-- Set this task's program counter. -/
def setPc (sv : Srv) (pc : TaskPC) (s : C2State) : C2State :=
  match sv with
  | .A => { s with pcA := pc }
  | .B => { s with pcB := pc }

/-- `App.queueUpdate` inside the scenario: dropped after shutdown,
otherwise enqueued for the presentation loop. -/
def pubUpd (p : Pub) (s : C2State) : C2State :=
  if s.stopped then s else { s with published := s.published ++ [p] }

/-- `onServerSelected` + `startConnection` (app.go:267-308): cancel the
stored in-flight connect attempt, make this target current, store the
new attempt's cancel handle, and spawn its `loadFiles` goroutine with a
fresh (uncancelled) context. -/
def selectSrv (sv : Srv) (s : C2State) : C2State :=
  let s1 :=
    match s.connectOwner with
    | some o => setCtx o true s
    | none => s
  let s2 := { s1 with current := some sv, connectOwner := some sv }
  setPc sv .ready (setCtx sv false s2)

/-- One atomic step of a `loadFiles` goroutine (app.go:317-376).
From `ready` its `GetClient` call resolves (the oracle fixes which
select/dial events occurred; `ok` is cleared if the oracle claims the
`ctx.Done()` select case without a cancelled context and cached entry).
From `gcFailed` the `ctx.Err()` check runs: a cancelled context drops
the result silently, otherwise a connect-error update is enqueued.
From `gotClient` the listing resolves and its result is enqueued
unconditionally — the code has no current-selection re-check. -/
def stepTask (sv : Srv) (o : TaskOracle) (s : C2State) : C2State :=
  match pcOf s sv with
  | .idle => s
  | .ready =>
    let s1 :=
      if o.gw.probeWinner = .ctxDone ∧
          (ctxOf s sv = false ∨ poolFind (poolKey o.srv) o.pool = none) then
        { s with ok := false }
      else s
    match (GetClient o.gw o.pool o.srv).1 with
    | .ok _ => setPc sv .gotClient s1
    | .error _ => setPc sv .gcFailed s1
  | .gcFailed =>
    if ctxOf s sv then setPc sv .done s
    else setPc sv .done (pubUpd (.connErrUI sv) s)
  | .gotClient =>
    if o.listOk then setPc sv .done (pubUpd (.listing sv) s)
    else if o.listSudoErr then setPc sv .done (pubUpd (.sudoPrompt sv) s)
    else setPc sv .done (pubUpd (.listErrUI sv) s)
  | .done => s

/-- Events of the scenario: the user selects A or B, or one of the two
background goroutines takes its next step. -/
inductive C2Ev
  | selectA
  | selectB
  | stepA
  | stepB
deriving DecidableEq, Repr

/-- Run a schedule of events against the two task oracles. -/
def c2Run (oa ob : TaskOracle) (s : C2State) : List C2Ev → C2State
  | [] => s
  | ev :: tl =>
    let s1 :=
      match ev with
      | .selectA => selectSrv .A s
      | .selectB => selectSrv .B s
      | .stepA => stepTask .A oa s
      | .stepB => stepTask .B ob s
    c2Run oa ob s1 tl

end LogMonitor

namespace LogMonitor

/-! ## Theorems -/

/-- **C9.** Once the application has entered its shutdown phase (the
`stopped` flag has been set by `shutdown`), every subsequent
`queueUpdate` call returns immediately without handing anything to the
presentation loop: the state, including the pending-update queue, is
left unchanged by any further sequence of enqueue attempts. -/
theorem queueUpdate_dropped_after_shutdown (s : AppState) (us : List Nat) :
    (shutdown s).stopped = true ∧
    List.foldl (fun st u => queueUpdate u st) (shutdown s) us = shutdown s := by
  have hstop : (shutdown s).stopped = true := by
    cases h : s.tailActive <;> simp [shutdown, h]
  refine ⟨hstop, ?_⟩
  induction us with
  | nil => rfl
  | cons u us ih =>
      have h1 : queueUpdate u (shutdown s) = shutdown s := by
        simp [queueUpdate, hstop]
      simpa [List.foldl, h1] using ih

/-- **C1 (counterexample).** The claim states that on natural end of the
tail stream the registered error callback is invoked exactly once, even
when the copy yields a nil end-of-stream error.  It is false: in the
code (`tailer.go:77`) the callback is invoked only when the copy error
is non-nil, so a clean end-of-stream with a callback registered invokes
it zero times. -/
theorem tailer_nil_eof_no_callback :
    ¬ ((tailerLoopEnd (.copyDone none) true).callbackCalls = 1) := by
  decide

/-- **C1 (amended).** For every tail stream that ends naturally, the
Tailer records the resulting copy error (including a nil end-of-stream),
and invokes the registered error callback exactly once if and only if
the copy error is non-nil and a callback is set; a clean nil
end-of-stream does not invoke the callback. -/
theorem tailer_natural_end_records_and_reports
    (e : Option String) (cbSet : Bool) :
    (tailerLoopEnd (.copyDone e) cbSet).recordedErr = e ∧
    (tailerLoopEnd (.copyDone e) cbSet).callbackCalls ≤ 1 ∧
    ((tailerLoopEnd (.copyDone e) cbSet).callbackCalls = 1 ↔
      (e ≠ none ∧ cbSet = true)) := by
  refine ⟨rfl, ?_, ?_⟩
  · cases e <;> cases cbSet <;> simp [tailerLoopEnd]
  · cases e <;> cases cbSet <;> simp [tailerLoopEnd]

/-- **C4.** For every privileged command executed with a sudo password,
if the remote command fails (`Wait` returns an error) and the
separately captured stderr contains an authentication-failure marker
("Sorry, try again" or "incorrect password"), `runCommand` returns the
distinct sudo-authentication-failure error, and in particular not the
generic command-failure error embedding the command and output. -/
theorem runCommand_sudo_auth_failure
    (w : CmdWorld) (cmd : String) (opts : CommandOpts)
    (hpw : opts.SudoPassword ≠ "")
    (hsess : w.newSessionOk = .ok ())
    (hpipe : w.stdinPipeOk = .ok ())
    (hstart : w.startOk = .ok ())
    (hwrite : w.writeOk = .ok ())
    (e : String) (hwait : w.waitErr = some e)
    (hmark : isSudoAuthFailure w.stderrData = true) :
    runCommand w cmd opts = .error .sudoAuthFailed ∧
    ∀ c' e' o', runCommand w cmd opts ≠ .error (.running c' e' o') := by
  have hrun : runCommand w cmd opts = .error .sudoAuthFailed := by
    simp [runCommand, hsess, hpipe, hstart, hwrite, hwait, hmark, hpw]
  exact ⟨hrun, by intro c' e' o'; simp [hrun]⟩

/-- Every action in a `buildAuth` trace is a key-file read or an agent
dial; in particular `buildAuth` never closes a cached client. -/
theorem mem_buildAuth_trace (w : DialWorld) (auth : AuthConfig) (a : Action)
    (h : a ∈ (buildAuth w auth).2) :
    a = .readKeyFile auth.KeyPath ∨ a = .dialAgent := by
  unfold buildAuth at h
  repeat' split at h
  all_goals simp_all

/-- A `dial` trace never contains a `closeClient` action: only
`GetClient` itself closes cached clients. -/
theorem closeClient_not_mem_dial_trace (w : DialWorld) (srv : ServerConfig)
    (i : Nat) : Action.closeClient i ∉ (dial w srv).2 := by
  intro h
  rcases hba : buildAuth w srv.Auth with ⟨r, acts⟩
  have hacts : Action.closeClient i ∉ acts := by
    intro ha
    rcases mem_buildAuth_trace w srv.Auth _ (by rw [hba]; exact ha) with h' | h' <;>
      simp at h'
  unfold dial at h
  rw [hba] at h
  rcases r with e | hasAgent
  · exact hacts h
  · simp only at h
    repeat' split at h
    all_goals simp_all

/-- A successful `dial` performed a TCP transport dial. -/
theorem tcpDial_mem_dial_trace_of_ok (w : DialWorld) (srv : ServerConfig)
    (nc : Nat) (dacts : List Action)
    (h : dial w srv = (.ok nc, dacts)) :
    Action.tcpDial (dialAddr srv) ∈ dacts := by
  unfold dial at h
  rcases hba : buildAuth w srv.Auth with ⟨r, acts⟩
  rw [hba] at h
  rcases r with e | hasAgent
  · simp at h
  · simp only at h
    repeat' split at h
    all_goals
      simp only [Prod.mk.injEq] at h
      obtain ⟨h1, h2⟩ := h
      rw [← h2]
      simp

/-- Erasing a key removes it: `poolFind` after `poolErase` misses. -/
theorem poolFind_poolErase (key : String) (m : PoolMap) :
    poolFind key (poolErase key m) = none := by
  induction m with
  | nil => rfl
  | cons kv tl ih =>
      by_cases hk : kv.1 = key <;> simp [poolErase, poolFind, hk, ih]

/-- Inserting a key stores it: `poolFind` after `poolInsert` hits. -/
theorem poolFind_poolInsert (key : String) (nc : Nat) (m : PoolMap) :
    poolFind key (poolInsert key nc m) = some nc := by
  simp [poolFind, poolInsert]

/-- **C3.** For every `GetClient` call whose key has a cached Session,
exactly one of three outcomes occurs, according to which event wins the
keepalive race: (1) the probe succeeds — the same cached Session is
returned, the pool is unchanged and no action (in particular no dial)
is performed; (2) the probe fails or times out — the dead entry is
closed exactly once (not double-closed) and removed from the cache,
and a fresh dial is performed whose successful result is returned and
stored under the key; (3) the caller's own cancellation fires first —
the cancellation error is returned without dialing and without
touching the pool. -/
theorem GetClient_cached_three_outcomes
    (w : GCWorld) (pool : PoolMap) (srv : ServerConfig) (c : Nat)
    (hc : poolFind (poolKey srv) pool = some c) :
    (w.probeWinner = .done → w.keepaliveErr = none →
      GetClient w pool srv = (.ok c, pool, [])) ∧
    (((∃ e, w.probeWinner = .done ∧ w.keepaliveErr = some e) ∨
        w.probeWinner = .timeout) →
      (GetClient w pool srv).2.2.count (Action.closeClient c) = 1 ∧
      poolFind (poolKey srv) (poolErase (poolKey srv) pool) = none ∧
      (∀ nc dacts, dial w.dialWorld srv = (.ok nc, dacts) →
        (GetClient w pool srv).1 = .ok nc ∧
        poolFind (poolKey srv) (GetClient w pool srv).2.1 = some nc ∧
        Action.tcpDial (dialAddr srv) ∈ (GetClient w pool srv).2.2)) ∧
    (w.probeWinner = .ctxDone →
      GetClient w pool srv = (.error .ctxErr, pool, [])) := by
  refine ⟨?_, ?_, ?_⟩
  · intro hwin hka
    simp [GetClient, hc, hwin, hka]
  · intro hfail
    refine ⟨?_, poolFind_poolErase _ _, ?_⟩
    · rcases hdial : dial w.dialWorld srv with ⟨dr, dacts⟩
      have hnot : Action.closeClient c ∉ dacts := by
        have h := closeClient_not_mem_dial_trace w.dialWorld srv c
        rw [hdial] at h
        exact h
      have htr : (GetClient w pool srv).2.2 = Action.closeClient c :: dacts := by
        rcases hfail with ⟨e, hwin, hka⟩ | hwin
        · rcases dr with e' | nc <;> simp [GetClient, hc, hwin, hka, hdial]
        · rcases hka2 : w.keepaliveErr with _ | e' <;> rcases dr with e'' | nc <;>
            simp [GetClient, hc, hwin, hka2, hdial]
      rw [htr]
      simp [List.count_cons, List.count_eq_zero.mpr hnot]
    · intro nc dacts hdial
      have hok : GetClient w pool srv =
          (.ok nc,
           poolInsert (poolKey srv) nc (poolErase (poolKey srv) pool),
           Action.closeClient c :: dacts) := by
        rcases hfail with ⟨e, hwin, hka⟩ | hwin
        · simp [GetClient, hc, hwin, hka, hdial]
        · rcases hka2 : w.keepaliveErr with _ | e' <;>
            simp [GetClient, hc, hwin, hka2, hdial]
      refine ⟨by simp [hok], by simp [hok, poolFind_poolInsert], ?_⟩
      rw [hok]
      exact List.mem_cons_of_mem _ (tcpDial_mem_dial_trace_of_ok _ _ _ _ hdial)
  · intro hwin
    simp [GetClient, hc, hwin]
/-- Witness for the three-outcome theorem at a concrete pool and world:
a cached session `7` whose keepalive probe succeeds is returned as-is,
with the pool untouched and no actions performed. -/
theorem GetClient_cached_three_outcomes_witness :
    GetClient
      { probeWinner := .done, keepaliveErr := none
        dialWorld :=
          { readKeyResult := .ok "keydata", parseKeyOk := .ok ()
            sshAuthSock := "", agentDialOk := .ok (), tcpDialOk := .ok ()
            handshakeOk := .ok (), ctxErrAfterHandshake := false
            newClientId := 8 } }
      [("deploy@web1:22", 7)]
      { Name := "web1", Host := "web1", Port := 22, User := "deploy"
        Auth := { Method := "key", KeyPath := "/home/d/.ssh/id" }
        LogPath := "/var/log", FilePatterns := [], Sudo := false } =
      (.ok 7, [("deploy@web1:22", 7)], []) :=
  (GetClient_cached_three_outcomes
    ({ probeWinner := .done, keepaliveErr := none,
            dialWorld :=
              { readKeyResult := .ok "keydata", parseKeyOk := .ok (),
                sshAuthSock := "", agentDialOk := .ok (), tcpDialOk := .ok (),
                handshakeOk := .ok (), ctxErrAfterHandshake := false,
                newClientId := 8 } })
    ([("deploy@web1:22", 7)])
    ({ Name := "web1", Host := "web1", Port := 22, User := "deploy",
              Auth := { Method := "key", KeyPath := "/home/d/.ssh/id" },
              LogPath := "/var/log", FilePatterns := [], Sudo := false })
    (7) (by decide)).1 rfl rfl

/-- **C7.** For every Target whose configured authentication method is
primary password authentication (and no session cached under its key,
as is always the case for such targets since dialing them never
succeeds), `GetClient` fails with the configuration error stating that
password auth is unsupported, and performs no action at all — in
particular no transport connection is dialed. -/
theorem GetClient_password_rejected
    (w : GCWorld) (pool : PoolMap) (srv : ServerConfig)
    (hm : srv.Auth.Method = "password")
    (hnc : poolFind (poolKey srv) pool = none) :
    GetClient w pool srv =
      (.error (.dialFailed (.authSetup srv.Host
        "password auth requires interactive input; use key or agent instead")),
       pool, []) ∧
    ∀ addr, Action.tcpDial addr ∉ (GetClient w pool srv).2.2 := by
  have hba : buildAuth w.dialWorld srv.Auth =
      (.error "password auth requires interactive input; use key or agent instead",
       []) := by
    simp [buildAuth, hm]
  have hd : dial w.dialWorld srv =
      (.error (.authSetup srv.Host
        "password auth requires interactive input; use key or agent instead"),
       []) := by
    simp [dial, hba]
  constructor
  · simp [GetClient, hnc, hd]
  · intro addr hmem
    simp [GetClient, hnc, hd] at hmem

/-- Witness for the password-rejection theorem at a concrete target. -/
theorem GetClient_password_rejected_witness :
    GetClient
      { probeWinner := .done, keepaliveErr := none
        dialWorld :=
          { readKeyResult := .ok "", parseKeyOk := .ok ()
            sshAuthSock := "/run/agent.sock", agentDialOk := .ok ()
            tcpDialOk := .ok (), handshakeOk := .ok ()
            ctxErrAfterHandshake := false, newClientId := 3 } }
      []
      { Name := "db1", Host := "db1", Port := 22, User := "root"
        Auth := { Method := "password", KeyPath := "" }
        LogPath := "/var/log", FilePatterns := [], Sudo := false } =
      (.error (.dialFailed (.authSetup "db1"
        "password auth requires interactive input; use key or agent instead")),
       [], []) :=
  (GetClient_password_rejected
    ({ probeWinner := .done, keepaliveErr := none,
            dialWorld :=
              { readKeyResult := .ok "", parseKeyOk := .ok (),
                sshAuthSock := "/run/agent.sock", agentDialOk := .ok (),
                tcpDialOk := .ok (), handshakeOk := .ok (),
                ctxErrAfterHandshake := false, newClientId := 3 } })
    ([])
    ({ Name := "db1", Host := "db1", Port := 22, User := "root",
              Auth := { Method := "password", KeyPath := "" },
              LogPath := "/var/log", FilePatterns := [], Sudo := false })
    rfl rfl).1

/-- **C8.** If the caller's cancellation has fired by the time the SSH
handshake completes successfully (the post-handshake `ctx.Err()`
re-check observes a cancelled context), `GetClient` still fails the
operation with the cancellation error, closes the just-established
connection, and does not store or return the new Session. -/
theorem GetClient_cancelled_after_handshake
    (w : GCWorld) (pool : PoolMap) (srv : ServerConfig)
    (hasAgent : Bool) (acts : List Action)
    (hnc : poolFind (poolKey srv) pool = none)
    (hba : buildAuth w.dialWorld srv.Auth = (.ok hasAgent, acts))
    (htcp : w.dialWorld.tcpDialOk = .ok ())
    (hhs : w.dialWorld.handshakeOk = .ok ())
    (hctx : w.dialWorld.ctxErrAfterHandshake = true) :
    (GetClient w pool srv).1 =
      .error (.dialFailed (.ctxCancelled (dialAddr srv))) ∧
    (GetClient w pool srv).2.1 = pool ∧
    Action.closeSSHConn ∈ (GetClient w pool srv).2.2 := by
  have hd : dial w.dialWorld srv =
      (.error (.ctxCancelled (dialAddr srv)),
       acts ++ [.tcpDial (dialAddr srv), .handshake (dialAddr srv), .closeSSHConn] ++
         (if hasAgent then [.closeAgent] else [])) := by
    simp [dial, hba, htcp, hhs, hctx]
  refine ⟨?_, ?_, ?_⟩ <;> simp [GetClient, hnc, hd]

/-- Witness for the cancelled-after-handshake theorem at a concrete
target and world. -/
theorem GetClient_cancelled_after_handshake_witness :
    (GetClient
      { probeWinner := .done, keepaliveErr := none
        dialWorld :=
          { readKeyResult := .ok "keydata", parseKeyOk := .ok ()
            sshAuthSock := "", agentDialOk := .ok (), tcpDialOk := .ok ()
            handshakeOk := .ok (), ctxErrAfterHandshake := true
            newClientId := 9 } }
      []
      { Name := "web2", Host := "web2", Port := 2022, User := "ops"
        Auth := { Method := "key", KeyPath := "/home/o/.ssh/id" }
        LogPath := "/srv/log", FilePatterns := [], Sudo := false }).1 =
      .error (.dialFailed (.ctxCancelled "web2:2022")) :=
  (GetClient_cancelled_after_handshake
    ({ probeWinner := .done, keepaliveErr := none,
            dialWorld :=
              { readKeyResult := .ok "keydata", parseKeyOk := .ok (),
                sshAuthSock := "", agentDialOk := .ok (), tcpDialOk := .ok (),
                handshakeOk := .ok (), ctxErrAfterHandshake := true,
                newClientId := 9 } })
    ([])
    ({ Name := "web2", Host := "web2", Port := 2022, User := "ops",
              Auth := { Method := "key", KeyPath := "/home/o/.ssh/id" },
              LogPath := "/srv/log", FilePatterns := [], Sudo := false })
    (false)
    ([.readKeyFile "/home/o/.ssh/id"])
    rfl rfl rfl rfl rfl).1

/-- Witness for the sudo authentication-failure theorem at a concrete
world: a failing `sudo -S ls -la` whose stderr is "Sorry, try again". -/
theorem runCommand_sudo_auth_failure_witness :
    runCommand
      { newSessionOk := .ok (), stdinPipeOk := .ok (), startOk := .ok ()
        writeOk := .ok (), waitErr := some "exit status 1"
        stdoutData := "", stderrData := "Sorry, try again"
        combinedOutput := "", combinedErr := none }
      "ls -la /var/log" { SudoPassword := "hunter2" } =
      .error .sudoAuthFailed :=
  (runCommand_sudo_auth_failure
    ({ newSessionOk := .ok (), stdinPipeOk := .ok (), startOk := .ok (),
            writeOk := .ok (), waitErr := some "exit status 1",
            stdoutData := "", stderrData := "Sorry, try again",
            combinedOutput := "", combinedErr := none })
    ("ls -la /var/log") ({ SudoPassword := "hunter2" })
    (by decide) rfl rfl rfl rfl "exit status 1" rfl (by decide)).1

/-- **C10.** A syntactically invalid glob pattern is silently ignored
by the listing filter: an entry is kept if and only if at least one
pattern matches its name with `filepath.Match` succeeding (no
pattern-syntax error), a malformed pattern therefore never matches any
entry, and `ListFiles` never returns an error because of a pattern —
a successful listing command always yields a successful (possibly
empty) result.  Concretely, the malformed pattern `[` is a pattern
error on any name and filters out everything. -/
theorem filterByPatterns_malformed_ignored
    (files : List FileInfo) (patterns : List String) (f : FileInfo) :
    (f ∈ filterByPatterns files patterns ↔
      f ∈ files ∧ ∃ p ∈ patterns, goMatch p f.Name = .ok true) ∧
    (∀ out dir pats, ListFiles (.ok out) dir pats = .ok (listFilesPure out pats)) ∧
    goMatch "[" "a.log" = .error () ∧
    filterByPatterns [{ Name := "a.log", Size := 5, ModTime := "", IsDir := false }]
      ["["] = [] := by
  refine ⟨?_, fun out dir pats => rfl, ?_, ?_⟩
  · constructor
    · intro hf
      rw [filterByPatterns, List.mem_filter] at hf
      obtain ⟨hmem, hany⟩ := hf
      rw [List.any_eq_true] at hany
      obtain ⟨p, hp, hm⟩ := hany
      refine ⟨hmem, p, hp, ?_⟩
      unfold matchOk at hm
      match hg : goMatch p f.Name with
      | .ok true => rfl
      | .ok false => rw [hg] at hm; simp at hm
      | .error e => rw [hg] at hm; simp at hm
    · intro ⟨hmem, p, hp, hm⟩
      rw [filterByPatterns, List.mem_filter]
      refine ⟨hmem, ?_⟩
      rw [List.any_eq_true]
      exact ⟨p, hp, by unfold matchOk; rw [hm]⟩
  · simp [goMatch, goMatchAux, starLoop, validateRest, matchChunk, scanChunk,
      scanStars, scanBody, classMatch, classMatchOk, classMatchRest, classMatchBad,
      parseRanges, getEsc, getEscOk, getEscRest, getEscChar, matchChunkOk,
      matchChunkT, matchChunkB, Except.map]
  · simp [filterByPatterns, matchOk, goMatch, goMatchAux, starLoop, validateRest,
      matchChunk, scanChunk, scanStars, scanBody, classMatch, classMatchOk,
      classMatchRest, classMatchBad, parseRanges, getEsc, getEscOk, getEscRest,
      getEscChar, matchChunkOk, matchChunkT, matchChunkB, Except.map]

set_option maxRecDepth 4000 in
/-- **C5.** `ListFiles` keeps an entry if and only if its name matches
at least one of the supplied glob patterns (when the pattern list is
non-empty), and always returns entries sorted ascending by name; in
particular, for a listing containing `a.log`, `b.txt`, `a.log.1` and
the single pattern `*.log*`, it returns exactly `a.log` and `a.log.1`
in ascending order. -/
theorem ListFiles_filter_and_sort
    (output : String) (patterns : List String) (f : FileInfo)
    (hne : patterns ≠ []) :
    (f ∈ listFilesPure output patterns ↔
      f ∈ parseLsOutput output ∧ ∃ p ∈ patterns, matchOk p f.Name = true) ∧
    (listFilesPure output patterns).Sorted fileLE ∧
    (listFilesPure
        ("total 12\n-rw-r--r-- 1 root root 100 2024-01-15 10:30:00.000000000 +0000 b.txt\n-rw-r--r-- 1 root root 7 2024-01-15 10:31:00.000000000 +0000 a.log.1\n-rw-r--r-- 1 root root 5 2024-01-15 10:30:00.000000000 +0000 a.log\n")
        ["*.log*"]).map FileInfo.Name = ["a.log", "a.log.1"] := by
  have hlen : 0 < patterns.length := List.length_pos.mpr hne
  refine ⟨?_, ?_, ?_⟩
  · rw [listFilesPure]
    simp only [hlen, if_pos]
    constructor
    · intro hf
      have hperm := List.perm_insertionSort fileLE
        (filterByPatterns (parseLsOutput output) patterns)
      have hf2 := hperm.mem_iff.mp hf
      rw [filterByPatterns, List.mem_filter] at hf2
      obtain ⟨hmem, hany⟩ := hf2
      rw [List.any_eq_true] at hany
      exact ⟨hmem, hany⟩
    · intro ⟨hmem, hany⟩
      have hperm := List.perm_insertionSort fileLE
        (filterByPatterns (parseLsOutput output) patterns)
      rw [hperm.mem_iff, filterByPatterns, List.mem_filter]
      exact ⟨hmem, List.any_eq_true.mpr hany⟩
  · rw [listFilesPure]
    exact List.sorted_insertionSort fileLE _
  · have h1 : matchOk "*.log*" "a.log" = true := by
      simp [matchOk, goMatch, goMatchAux, starLoop, validateRest, matchChunk,
        scanChunk, scanStars, scanBody, classMatch, classMatchOk, classMatchRest,
        classMatchBad, parseRanges, getEsc, getEscOk, getEscRest, getEscChar,
        matchChunkOk, matchChunkT, matchChunkB, Except.map]
    have h2 : matchOk "*.log*" "a.log.1" = true := by
      simp [matchOk, goMatch, goMatchAux, starLoop, validateRest, matchChunk,
        scanChunk, scanStars, scanBody, classMatch, classMatchOk, classMatchRest,
        classMatchBad, parseRanges, getEsc, getEscOk, getEscRest, getEscChar,
        matchChunkOk, matchChunkT, matchChunkB, Except.map]
    have h3 : matchOk "*.log*" "b.txt" = false := by
      simp [matchOk, goMatch, goMatchAux, starLoop, validateRest, matchChunk,
        scanChunk, scanStars, scanBody, classMatch, classMatchOk, classMatchRest,
        classMatchBad, parseRanges, getEsc, getEscOk, getEscRest, getEscChar,
        matchChunkOk, matchChunkT, matchChunkB, Except.map]
    have hp : parseLsOutput
        ("total 12\n-rw-r--r-- 1 root root 100 2024-01-15 10:30:00.000000000 +0000 b.txt\n-rw-r--r-- 1 root root 7 2024-01-15 10:31:00.000000000 +0000 a.log.1\n-rw-r--r-- 1 root root 5 2024-01-15 10:30:00.000000000 +0000 a.log\n") =
        [{ Name := "b.txt", Size := 100, ModTime := "2024-01-15 10:30:00", IsDir := false },
         { Name := "a.log.1", Size := 7, ModTime := "2024-01-15 10:31:00", IsDir := false },
         { Name := "a.log", Size := 5, ModTime := "2024-01-15 10:30:00", IsDir := false }] := by
      decide
    rw [listFilesPure, hp]
    simp only [List.length_cons, List.length_nil, Nat.zero_lt_succ, if_pos]
    rw [filterByPatterns]
    simp only [List.filter, List.any, h1, h2, h3]
    decide

/-- Witness for the listing-filter theorem at the concrete blob. -/
theorem ListFiles_filter_and_sort_witness :
    (listFilesPure
        ("total 12\n-rw-r--r-- 1 root root 100 2024-01-15 10:30:00.000000000 +0000 b.txt\n-rw-r--r-- 1 root root 7 2024-01-15 10:31:00.000000000 +0000 a.log.1\n-rw-r--r-- 1 root root 5 2024-01-15 10:30:00.000000000 +0000 a.log\n")
        ["*.log*"]).map FileInfo.Name = ["a.log", "a.log.1"] :=
  (ListFiles_filter_and_sort
    ("total 12\n-rw-r--r-- 1 root root 100 2024-01-15 10:30:00.000000000 +0000 b.txt\n-rw-r--r-- 1 root root 7 2024-01-15 10:31:00.000000000 +0000 a.log.1\n-rw-r--r-- 1 root root 5 2024-01-15 10:30:00.000000000 +0000 a.log\n")
    ["*.log*"]
    { Name := "a.log", Size := 5, ModTime := "2024-01-15 10:30:00", IsDir := false }
    (by decide)).2.2

/-- **C6 (counterexample).** The claim states that the filename of a
kept entry is the remainder of the line after the 8 fixed leading
fields.  It is false: `parseLsOutput` rebuilds the name by joining the
whitespace-separated fields after the first 8 with single spaces
(`strings.Join(fields[8:], " ")`), so a filename containing a run of
two spaces is altered — on the line below the remainder is
`a  b.log` but the parsed entry's name is `a b.log`. -/
theorem parseLsOutput_name_not_line_remainder :
    (parseLsOutput
        "-rw-r--r-- 1 root root 5 2024-01-15 10:30:00.000000000 +0000 a  b.log").map
      FileInfo.Name = ["a b.log"] ∧
    specFilenameAfter8Fields
      "-rw-r--r-- 1 root root 5 2024-01-15 10:30:00.000000000 +0000 a  b.log" =
      "a  b.log" ∧
    (parseLsOutput
        "-rw-r--r-- 1 root root 5 2024-01-15 10:30:00.000000000 +0000 a  b.log").map
      FileInfo.Name ≠
      [specFilenameAfter8Fields
        "-rw-r--r-- 1 root root 5 2024-01-15 10:30:00.000000000 +0000 a  b.log"] := by
  refine ⟨by decide, by decide, ?_⟩
  intro h
  rw [show specFilenameAfter8Fields
      "-rw-r--r-- 1 root root 5 2024-01-15 10:30:00.000000000 +0000 a  b.log" =
      "a  b.log" from by decide] at h
  rw [show (parseLsOutput
      "-rw-r--r-- 1 root root 5 2024-01-15 10:30:00.000000000 +0000 a  b.log").map
      FileInfo.Name = ["a b.log"] from by decide] at h
  simp at h

/-- **C6 (amended).** The listing parser silently skips malformed lines
(blank lines and lines with fewer than 9 whitespace-separated fields)
and drops the entries named `.` and `..`, so a blob containing one
well-formed entry line and one truncated line yields exactly one
FileEntry; the filename of a kept entry is the whitespace-separated
fields of the trimmed line after the first 8, rejoined with single
spaces (runs of whitespace inside the original name are collapsed). -/
theorem parseLsOutput_tolerant :
    (parseLsOutput
        "-rw-r--r-- 1 root root 5 2024-01-15 10:30:00.000000000 +0000 x.log\n-rw-r--r-- 1 root root 5").length
      = 1 ∧
    (∀ raw, goTrimSpace raw = "" → parseLsLine raw = none) ∧
    (∀ raw, (goFields (goTrimSpace raw)).length < 9 → parseLsLine raw = none) ∧
    (∀ raw f, parseLsLine raw = some f →
      f.Name = joinSpace ((goFields (goTrimSpace raw)).drop 8) ∧
      f.Name ≠ "." ∧ f.Name ≠ "..") := by
  refine ⟨by decide, ?_, ?_, ?_⟩
  · intro raw h
    simp [parseLsLine, h]
  · intro raw h
    simp [parseLsLine, h]
  · intro raw f h
    unfold parseLsLine at h
    repeat' split at h
    all_goals simp_all
    all_goals
      (obtain ⟨-, -, ⟨hn1, hn2⟩, hf⟩ := h
       subst hf
       exact ⟨rfl, hn1, hn2⟩)

/-- Witness for the tolerance theorem: a blank line and a truncated
line are skipped, and a kept entry's name is the rejoined tail
fields. -/
theorem parseLsOutput_tolerant_witness :
    parseLsLine "   " = none ∧
    parseLsLine "-rw-r--r-- 1 root root 5" = none ∧
    ({ Name := "x.log", Size := 5, ModTime := "2024-01-15 10:30:00", IsDir := false } :
        FileInfo).Name =
      joinSpace ((goFields (goTrimSpace
        "-rw-r--r-- 1 root root 5 2024-01-15 10:30:00.000000000 +0000 x.log")).drop 8) :=
  ⟨parseLsOutput_tolerant.2.1 "   " (by decide),
   parseLsOutput_tolerant.2.2.1 "-rw-r--r-- 1 root root 5" (by decide),
   (parseLsOutput_tolerant.2.2.2
     "-rw-r--r-- 1 root root 5 2024-01-15 10:30:00.000000000 +0000 x.log"
     { Name := "x.log", Size := 5, ModTime := "2024-01-15 10:30:00", IsDir := false }
     (by decide)).1⟩

/-- `Except` success test. -/
def exceptIsOk {e a : Type} : Except e a → Bool
  | .ok _ => true
  | .error _ => false

/-- Running a schedule splits over append. -/
theorem c2Run_append (oa ob : TaskOracle) (s : C2State) (l1 l2 : List C2Ev) :
    c2Run oa ob s (l1 ++ l2) = c2Run oa ob (c2Run oa ob s l1) l2 := by
  induction l1 generalizing s with
  | nil => rfl
  | cons e tl ih => simp [c2Run, ih]

/-- A step of task B leaves task A's program counter, context, the
stored connect owner, and the A-tagged published updates unchanged. -/
theorem stepTask_B_preserves (ob : TaskOracle) (s : C2State) :
    (stepTask .B ob s).pcA = s.pcA ∧
    (stepTask .B ob s).ctxA = s.ctxA ∧
    (stepTask .B ob s).connectOwner = s.connectOwner ∧
    (Pub.listing .A ∈ (stepTask .B ob s).published →
      Pub.listing .A ∈ s.published) ∧
    (Pub.connErrUI .A ∈ (stepTask .B ob s).published →
      Pub.connErrUI .A ∈ s.published) := by
  unfold stepTask
  cases hpc : s.pcB
  all_goals simp only [pcOf, hpc]
  · simp
  · rcases hg : (GetClient ob.gw ob.pool ob.srv).1 with e | r <;>
      (repeat' split) <;> simp [setPc, pubUpd]
  · repeat' split
    all_goals simp [setPc, pubUpd, ctxOf]
    all_goals (split <;> simp_all)
  · repeat' split
    all_goals simp [setPc, pubUpd]
    all_goals (split <;> simp_all)
  · simp

/-- With a failing `GetClient`, a step of task A whose context is
cancelled and which has not obtained a client keeps that situation and
publishes nothing. -/
theorem stepTask_A_fail_preserves (oa : TaskOracle) (s : C2State)
    (hgc : exceptIsOk (GetClient oa.gw oa.pool oa.srv).1 = false)
    (hctx : s.ctxA = true) (hpc : s.pcA ≠ TaskPC.gotClient) :
    (stepTask .A oa s).ctxA = true ∧
    (stepTask .A oa s).pcA ≠ TaskPC.gotClient ∧
    (stepTask .A oa s).published = s.published := by
  unfold stepTask
  cases hp : s.pcA
  all_goals simp only [pcOf, hp]
  · simp [hctx]
  · rcases hg : (GetClient oa.gw oa.pool oa.srv).1 with e | r
    · by_cases hcond : oa.gw.probeWinner = ProbeWinner.ctxDone ∧
          (ctxOf s Srv.A = false ∨ poolFind (poolKey oa.srv) oa.pool = none)
      · simp [hcond, setPc, hctx]
      · simp [hcond, setPc, hctx]
    · rw [hg] at hgc
      simp [exceptIsOk] at hgc
  · exact absurd hp hpc
  · simp [ctxOf, hctx, setPc]
  · simp [hctx]

/-- No A-tagged listing or connect-error update. -/
def c2NoA (l : List Pub) : Prop :=
  Pub.listing .A ∉ l ∧ Pub.connErrUI .A ∉ l

/-- Steps of task B between A's selection and B's selection leave A's
goroutine pending, the stored connect owner on A, and the published
updates free of A entries. -/
theorem c2_pre_phase (oa ob : TaskOracle) (pre : List C2Ev)
    (hpre : pre.all (· == C2Ev.stepB) = true) (s : C2State)
    (h1 : s.pcA = .ready) (h2 : s.connectOwner = some .A)
    (h3 : c2NoA s.published) :
    (c2Run oa ob s pre).pcA = .ready ∧
    (c2Run oa ob s pre).connectOwner = some .A ∧
    c2NoA (c2Run oa ob s pre).published := by
  induction pre generalizing s with
  | nil => exact ⟨h1, h2, h3⟩
  | cons e tl ih =>
      simp only [List.all_cons, Bool.and_eq_true, beq_iff_eq] at hpre
      obtain ⟨he, htl⟩ := hpre
      subst he
      have hb := stepTask_B_preserves ob s
      exact ih htl (stepTask .B ob s)
        (by rw [hb.1]; exact h1)
        (by rw [hb.2.2.1]; exact h2)
        ⟨fun hm => h3.1 (hb.2.2.2.1 hm), fun hm => h3.2 (hb.2.2.2.2 hm)⟩

/-- After B's selection has cancelled A's context, as long as A's
`GetClient` resolves with an error no step of either goroutine can
publish an A-tagged update. -/
theorem c2_post_phase (oa ob : TaskOracle) (post : List C2Ev)
    (hpost : post.all (fun e => e == C2Ev.stepA || e == C2Ev.stepB) = true)
    (hgc : exceptIsOk (GetClient oa.gw oa.pool oa.srv).1 = false)
    (s : C2State) (h1 : s.ctxA = true) (h2 : s.pcA ≠ .gotClient)
    (h3 : c2NoA s.published) :
    c2NoA (c2Run oa ob s post).published := by
  induction post generalizing s with
  | nil => exact h3
  | cons e tl ih =>
      simp only [List.all_cons, Bool.and_eq_true, Bool.or_eq_true, beq_iff_eq]
        at hpost
      obtain ⟨he, htl⟩ := hpost
      rcases he with he | he <;> subst he
      · have ha := stepTask_A_fail_preserves oa s hgc h1 h2
        exact ih htl (stepTask .A oa s) ha.1 ha.2.1 (by rw [ha.2.2]; exact h3)
      · have hb := stepTask_B_preserves ob s
        exact ih htl (stepTask .B ob s)
          (by rw [hb.2.1]; exact h1)
          (by rw [hb.1]; exact h2)
          ⟨fun hm => h3.1 (hb.2.2.2.1 hm), fun hm => h3.2 (hb.2.2.2.2 hm)⟩

/-- Selecting B while the stored connect attempt belongs to A cancels
A's context and touches neither A's program counter nor the published
updates. -/
theorem selectB_after_A (s : C2State) (h : s.connectOwner = some .A) :
    (selectSrv .B s).ctxA = true ∧ (selectSrv .B s).pcA = s.pcA ∧
    (selectSrv .B s).published = s.published := by
  unfold selectSrv
  rw [h]
  simp [setCtx, setPc]

/-- Oracle for a task whose `GetClient` succeeds from the cache even
though its context was already cancelled: the keepalive reply wins the
`select` race, a genuinely possible outcome since the
keepalive-success path of `GetClient` never re-checks the context. -/
def staleOracle : TaskOracle :=
  { pool := [("deploy@web1:22", 7)]
    gw := { probeWinner := .done, keepaliveErr := none
            dialWorld :=
              { readKeyResult := .ok "k", parseKeyOk := .ok ()
                sshAuthSock := "", agentDialOk := .ok (), tcpDialOk := .ok ()
                handshakeOk := .ok (), ctxErrAfterHandshake := false
                newClientId := 9 } }
    srv := { Name := "web1", Host := "web1", Port := 22, User := "deploy"
             Auth := { Method := "key", KeyPath := "/id" }
             LogPath := "/var/log", FilePatterns := [], Sudo := false }
    listOk := true
    listSudoErr := false }

/-- Oracle for a task whose `GetClient` fails: nothing cached and the
TCP dial is refused. -/
def failOracle : TaskOracle :=
  { pool := []
    gw := { probeWinner := .done, keepaliveErr := none
            dialWorld :=
              { readKeyResult := .ok "k", parseKeyOk := .ok ()
                sshAuthSock := "", agentDialOk := .ok ()
                tcpDialOk := .error "connection refused"
                handshakeOk := .ok (), ctxErrAfterHandshake := false
                newClientId := 9 } }
    srv := { Name := "web1", Host := "web1", Port := 22, User := "deploy"
             Auth := { Method := "key", KeyPath := "/id" }
             LogPath := "/var/log", FilePatterns := [], Sudo := false }
    listOk := true
    listSudoErr := false }

/-- **C2 (counterexample).** The claim states that when target A is
selected and then target B before A's connect attempt resolves, only
B's file listing is ever published — every background listing checks
the current selection before publishing.  It is false on the code:
`loadFiles` re-checks only `ctx.Err()` and only in its connect-failure
branch, never the current selection.  In the run below A's cached
`GetClient` resolves successfully after B's selection (the keepalive
reply wins the race against the already-cancelled context), and A's
stale listing is published. -/
theorem loadFiles_stale_suppression_counterexample :
    ¬ (∀ (oa ob : TaskOracle) (pre post : List C2Ev),
        pre.all (· == C2Ev.stepB) = true →
        post.all (fun e => e == C2Ev.stepA || e == C2Ev.stepB) = true →
        (c2Run oa ob c2Init
          (C2Ev.selectA :: pre ++ C2Ev.selectB :: post)).ok = true →
        Pub.listing Srv.A ∉ (c2Run oa ob c2Init
          (C2Ev.selectA :: pre ++ C2Ev.selectB :: post)).published) := by
  intro hall
  have h := hall staleOracle staleOracle [] [C2Ev.stepA, C2Ev.stepA]
    (by decide) (by decide) (by decide)
  exact h (by decide)

/-- **C2 (amended).** If the user selects target A and then target B
before A's connect attempt resolves, and A's `GetClient` call resolves
with an error — as it does whenever it observes the cancellation —
then nothing from A's listing operation is ever published (the
cancelled-context check in the connect-failure branch drops it
silently), so only B's file listing can be published.  The code does
not, however, re-check the current selection before publishing: a
superseded operation whose `GetClient` nevertheless returns a session
(for example when the keepalive reply wins the race) still publishes
its stale listing. -/
theorem loadFiles_stale_suppression_amended (oa ob : TaskOracle)
    (pre post : List C2Ev)
    (hpre : pre.all (· == C2Ev.stepB) = true)
    (hpost : post.all (fun e => e == C2Ev.stepA || e == C2Ev.stepB) = true)
    (hgc : exceptIsOk (GetClient oa.gw oa.pool oa.srv).1 = false) :
    Pub.listing Srv.A ∉ (c2Run oa ob c2Init
      (C2Ev.selectA :: pre ++ C2Ev.selectB :: post)).published ∧
    Pub.connErrUI Srv.A ∉ (c2Run oa ob c2Init
      (C2Ev.selectA :: pre ++ C2Ev.selectB :: post)).published := by
  have h0 : c2Run oa ob c2Init (C2Ev.selectA :: pre ++ C2Ev.selectB :: post) =
      c2Run oa ob (selectSrv .A c2Init) (pre ++ C2Ev.selectB :: post) := rfl
  rw [h0, c2Run_append]
  have hP := c2_pre_phase oa ob pre hpre (selectSrv .A c2Init)
    (by decide) (by decide) (by constructor <;> simp [selectSrv, c2Init, setPc, setCtx])
  have h1 : c2Run oa ob (c2Run oa ob (selectSrv .A c2Init) pre)
      (C2Ev.selectB :: post) =
      c2Run oa ob (selectSrv .B (c2Run oa ob (selectSrv .A c2Init) pre)) post := rfl
  rw [h1]
  have hS := selectB_after_A _ hP.2.1
  exact c2_post_phase oa ob post hpost hgc _
    hS.1
    (by rw [hS.2.1, hP.1]; simp)
    (by rw [hS.2.2]; exact hP.2.2)

/-- Witness for the amended stale-suppression theorem: with a failing
connect attempt for A, the run publishes nothing for A. -/
theorem loadFiles_stale_suppression_amended_witness :
    Pub.listing Srv.A ∉ (c2Run failOracle failOracle c2Init
      (C2Ev.selectA :: [] ++ C2Ev.selectB :: [C2Ev.stepA, C2Ev.stepA])).published ∧
    Pub.connErrUI Srv.A ∉ (c2Run failOracle failOracle c2Init
      (C2Ev.selectA :: [] ++ C2Ev.selectB :: [C2Ev.stepA, C2Ev.stepA])).published :=
  loadFiles_stale_suppression_amended failOracle failOracle []
    [C2Ev.stepA, C2Ev.stepA] (by decide) (by decide) (by decide)

end LogMonitor
